import Mathlib

/-!
Verification development for the civ6mcp save-file / telemetry parsers.

The TypeScript source is shallowly embedded:
* `Buffer` values become `List Nat` (one `Nat` per byte),
* JavaScript strings become `String` / `List Char`,
* JavaScript numbers that may be `NaN` become `Option Int` / `Option ℚ`
  (`none` models `NaN`; JavaScript doubles carry no other role in the
  claims considered here, so exact rationals stand in for them),
* functions that can throw return `Except String`.

Sections mirror the source files: `Civ6.Parser` embeds `src/parser.ts`,
`Civ6.Logs` embeds the CSV aggregators of `src/index.ts`, and `Civ6.Hist`
embeds the history parser whose source is reproduced in `TOOLS.md`.
-/

namespace Civ6

/-! ### Generic byte/char scanning helpers (Buffer.indexOf etc.) -/

/-- `pat.isPrefixOf l`-style first-occurrence search: `Buffer.indexOf(pat)`
    from offset 0. Returns the index of the first full occurrence. -/
def findSeq {α : Type} [DecidableEq α] (buf pat : List α) : Option Nat :=
  if pat.isPrefixOf buf then some 0
  else
    match buf with
    | [] => none
    | _ :: t => (findSeq t pat).map (· + 1)

/-- `Buffer.indexOf(pat, start)`: first occurrence at index `≥ start`. -/
def findSeqFrom {α : Type} [DecidableEq α] (buf pat : List α) (start : Nat) : Option Nat :=
  (findSeq (buf.drop start) pat).map (start + ·)

/-- `buffer.subarray(start, stop)` (clamping, end exclusive). -/
def subarray {α : Type} (buf : List α) (start stop : Nat) : List α :=
  (buf.take stop).drop start

/-- `buffer.readUInt32LE(pos)`; `none` models the thrown `ERR_OUT_OF_RANGE`. -/
def read32 (buf : List Nat) (pos : Nat) : Option Nat :=
  match buf.drop pos with
  | b0 :: b1 :: b2 :: b3 :: _ => some (b0 + 256 * b1 + 65536 * b2 + 16777216 * b3)
  | _ => none

/-- `buffer.readUInt16LE(pos)`; `none` models the thrown `ERR_OUT_OF_RANGE`. -/
def read16 (buf : List Nat) (pos : Nat) : Option Nat :=
  match buf.drop pos with
  | b0 :: b1 :: _ => some (b0 + 256 * b1)
  | _ => none

/-- `buffer.toString('ascii', ...)`: Node strips the high bit of each byte. -/
def decodeAscii (bytes : List Nat) : String :=
  String.mk (bytes.map fun b => Char.ofNat (b % 128))

/-- `buffer.toString('utf8', ...)`, modelled byte-per-char.  All byte
    regions the claims inspect are 7-bit ASCII, where this agrees with
    UTF-8 decoding; multi-byte sequences are out of scope. -/
def decodeUtf8 (bytes : List Nat) : List Char :=
  bytes.map fun b => Char.ofNat b

end Civ6

namespace Civ6.Parser

/-! ### src/parser.ts — binary markers and tag-value scanner -/

/-- `COMPRESSED_DATA_END = Buffer.from([0, 0, 0xFF, 0xFF])` -/
def COMPRESSED_DATA_END : List Nat := [0, 0, 0xFF, 0xFF]

/-- `ZLIB_HEADER = Buffer.from([0x78, 0x9C])` -/
def ZLIB_HEADER : List Nat := [0x78, 0x9C]

/-- `MARKERS.GAME_TURN` -/
def GAME_TURN : List Nat := [0x9D, 0x2C, 0xE6, 0xBD]

/-- `MARKERS.GAME_SPEED` -/
def GAME_SPEED : List Nat := [0x99, 0xB0, 0xD9, 0x05]

/-- `MARKERS.MAP_SIZE` -/
def MAP_SIZE : List Nat := [0x40, 0x5C, 0x83, 0x0B]

/-- The `data` payload of a decoded marker value. -/
inductive MarkerData where
  | bool (b : Bool)
  | int (n : Nat)
  | str (s : List Char)
deriving DecidableEq, Repr

/-- `readMarkerValue(buffer, marker)`.  The outer `Except` models the
    `RangeError` thrown by an out-of-bounds `readUInt32LE`/`readUInt16LE`;
    the inner `Option` is the function's `null` result. -/
def readMarkerValue (buffer marker : List Nat) :
    Except String (Option (Nat × MarkerData)) := do
  match findSeq buffer marker with
  | none => return none
  | some pos =>
    let t ← match read32 buffer (pos + 4) with
      | none => Except.error "ERR_OUT_OF_RANGE"
      | some t => pure t
    match t with
    | 1 =>
      match read32 buffer (pos + 16) with
      | none => Except.error "ERR_OUT_OF_RANGE"
      | some v => return some (t, .bool (v != 0))
    | 2 =>
      match read32 buffer (pos + 16) with
      | none => Except.error "ERR_OUT_OF_RANGE"
      | some v => return some (t, .int v)
    | 5 =>
      match read16 buffer (pos + 8) with
      | none => Except.error "ERR_OUT_OF_RANGE"
      | some strLen =>
        -- buffer.toString('utf8', pos+16, pos+16+strLen-1): clamping slice
        return some (t, .str (decodeUtf8 ((buffer.drop (pos + 16)).take (strLen - 1))))
    | _ => return none

/-! ### Compressed segment extractor -/

/-- The chunk-reassembly loop of `decompressGameData`: walk the slice in
    strides of `65536 + 4` bytes keeping the first `65536` of each. -/
def reassemble (l : List Nat) : List Nat :=
  if l = [] then []
  else l.take 65536 ++ reassemble (l.drop (65536 + 4))
termination_by l.length
decreasing_by
  rename_i h
  simp only [List.length_drop]
  have := List.length_pos.mpr h
  omega

/-- `decompressGameData(buffer)`, parameterised by the external zlib
    inflater (`unzipSync` with `Z_SYNC_FLUSH`); `inflate` returning `none`
    models a thrown decompression error, which the source catches. -/
def decompressGameData (inflate : List Nat → Option (List Nat))
    (buffer : List Nat) : Option (List Nat) :=
  match findSeqFrom buffer ZLIB_HEADER 200000 with
  | none => none
  | some zlibStart =>
    match findSeqFrom buffer COMPRESSED_DATA_END zlibStart with
    | none => none
    | some endPos =>
      if endPos ≤ zlibStart then none
      else
        let compressedChunk := subarray buffer zlibStart (endPos + COMPRESSED_DATA_END.length)
        inflate (reassemble compressedChunk)

end Civ6.Parser

namespace Civ6

/-! ### Char-level scanners modelling the JavaScript regex calls -/

/-- Drop an exact literal from the front, or fail. -/
def dropLiteral : List Char → List Char → Option (List Char)
  | [], l => some l
  | _ :: _, [] => none
  | p :: ps, c :: cs => if c = p then dropLiteral ps cs else none

/-- `String.prototype.includes`. -/
def containsSub (l sub : List Char) : Bool :=
  (findSeq l sub).isSome

/-- All start indices of (possibly overlapping) occurrences of `pat`. -/
def indicesOfSeq (pat : List Char) : List Char → List Nat
  | [] => []
  | c :: rest =>
    let tail := (indicesOfSeq pat rest).map (· + 1)
    if pat.isPrefixOf (c :: rest) then 0 :: tail else tail

/-- Remove the first occurrence of `pat` (JavaScript
    `String.prototype.replace(pat, '')` with a string pattern). -/
def removeFirstSeq (pat : List Char) : List Char → List Char
  | [] => []
  | c :: rest =>
    if pat.isPrefixOf (c :: rest) then (c :: rest).drop pat.length
    else c :: removeFirstSeq pat rest

/-- Global regex scan (`String.prototype.matchAll` with a `/g` regex): try
    an anchored match at every position, resuming after each match
    (`lastIndex` semantics).  `anchor` returns the match value and the
    number of characters consumed, which is positive for every pattern
    modelled here.  The fuel argument only bounds the loop (every step
    consumes at least one character, so `l.length` always suffices); it
    keeps the recursion structural. -/
def scanAllFuel {τ : Type} (anchor : List Char → Option (τ × Nat)) :
    Nat → List Char → List τ
  | 0, _ => []
  | _ + 1, [] => []
  | fuel + 1, c :: rest =>
    match anchor (c :: rest) with
    | none => scanAllFuel anchor fuel rest
    | some (v, n) => v :: scanAllFuel anchor fuel (rest.drop (n - 1))

/-- `scanAllFuel` with its sufficient fuel. -/
def scanAll {τ : Type} (anchor : List Char → Option (τ × Nat)) (l : List Char) :
    List τ :=
  scanAllFuel anchor l.length l

/-- First match of an anchored pattern (`String.prototype.match` without
    `/g`): try each position left to right. -/
def firstMatch {τ : Type} (anchor : List Char → Option τ) : List Char → Option τ
  | [] => none
  | c :: rest => (anchor (c :: rest)).orElse fun _ => firstMatch anchor rest

/-- Character class `[A-Z_]`. -/
def isTokenChar (c : Char) : Bool :=
  ('A' ≤ c && c ≤ 'Z') || c = '_'

/-- Anchored match for a regex of shape `PREFIX[A-Z_]+` (a literal prefix
    followed by a greedy nonempty run).  Lazy variants with a
    `(?=[^A-Z_]|$)` lookahead, as in the source's civilization patterns,
    match the same maximal run.  Returns the run (the capture group) and
    the characters consumed. -/
def anchorRun (pre : List Char) (good : Char → Bool) (l : List Char) :
    Option (List Char × Nat) :=
  match dropLiteral pre l with
  | none => none
  | some rest =>
    let run := rest.takeWhile good
    if run.isEmpty then none else some (run, pre.length + run.length)

/-- Non-overlapping occurrence positions of a literal, advancing by the
    literal's length after each hit — the source's
    `while (true) { pos = indexOf(marker, searchPos); searchPos = pos + marker.length }`
    collection loop. -/
def scanPositionsFuel (pat : List Char) : Nat → List Char → List Nat
  | 0, _ => []
  | _ + 1, [] => []
  | fuel + 1, c :: rest =>
    if pat.isPrefixOf (c :: rest) then
      0 :: (scanPositionsFuel pat fuel (rest.drop (pat.length - 1))).map (· + pat.length)
    else
      (scanPositionsFuel pat fuel rest).map (· + 1)

/-- `scanPositionsFuel` with its sufficient fuel (each step consumes at
    least one character). -/
def scanPositions (pat : List Char) (l : List Char) : List Nat :=
  scanPositionsFuel pat l.length l

/-- `[...new Set(xs)]`: deduplicate keeping first-seen order. -/
def dedupFirst {α : Type} [DecidableEq α] (l : List α) : List α :=
  l.foldl (fun acc x => if x ∈ acc then acc else acc ++ [x]) []

/-- The whitespace characters relevant to `String.prototype.trim` /
    `parseInt` in this CSV data. -/
def isJsSpace (c : Char) : Bool :=
  c = ' ' || c = '\t' || c = '\n' || c = '\r'

/-- `String.prototype.trim`. -/
def jsTrim (l : List Char) : List Char :=
  ((l.dropWhile isJsSpace).reverse.dropWhile isJsSpace).reverse

/-- Decimal rendering of a natural number (structural via fuel). -/
def natToCharsAux : Nat → Nat → List Char
  | 0, _ => []
  | fuel + 1, n =>
    if n < 10 then [Nat.digitChar n]
    else natToCharsAux fuel (n / 10) ++ [Nat.digitChar (n % 10)]

/-- Decimal rendering of a natural number. -/
def natToChars (n : Nat) : List Char :=
  natToCharsAux (n + 1) n

/-- Digit run to number (`parseInt` on a known-digit capture). -/
def digitsToNat (ds : List Char) : Nat :=
  ds.foldl (fun a c => a * 10 + (c.toNat - '0'.toNat)) 0

end Civ6

namespace Civ6.Parser

/-! ### src/parser.ts — text extraction from header and inflated data -/

/-- `formatEnumValue`: split on `_`, capitalise each word, join with spaces. -/
def formatEnumValue (l : List Char) : String :=
  String.mk (List.intercalate [' ']
    ((l.splitOn '_').map fun w =>
      match w with
      | [] => []
      | c :: cs => c.toUpper :: cs.map Char.toLower))

/-- The curated civilization → leader display table of `getLeaderForCiv`. -/
def civToLeader : List (String × String) :=
  [("VIETNAM", "Bà Triệu"), ("GEORGIA", "Tamar"), ("PERSIA", "Cyrus"),
   ("CANADA", "Wilfrid Laurier"), ("NETHERLANDS", "Wilhelmina"),
   ("OTTOMAN", "Suleiman"), ("ROME", "Trajan"), ("EGYPT", "Cleopatra"),
   ("MACEDON", "Alexander"), ("SUMERIA", "Gilgamesh"), ("INDIA", "Gandhi"),
   ("CHINA", "Qin Shi Huang"), ("RUSSIA", "Peter the Great"),
   ("ENGLAND", "Victoria"), ("AZTEC", "Montezuma"), ("GERMANY", "Barbarossa"),
   ("GREECE", "Pericles"), ("JAPAN", "Hojo"), ("KONGO", "Mvemba a Nzinga"),
   ("BRAZIL", "Pedro II"), ("NORWAY", "Harald Hardrada"),
   ("SCYTHIA", "Tomyris"), ("SPAIN", "Philip II"), ("POLAND", "Jadwiga"),
   ("ARABIA", "Saladin"), ("INDONESIA", "Gitarja"), ("KHMER", "Jayavarman VII"),
   ("AUSTRALIA", "John Curtin"), ("ZULU", "Shaka"),
   ("MONGOLIA", "Genghis Khan"), ("SCOTLAND", "Robert the Bruce"),
   ("GAUL", "Ambiorix"), ("NUBIA", "Amanitore")]

/-- `getLeaderForCiv(civ)`. -/
def getLeaderForCiv (civ : List Char) : String :=
  (civToLeader.lookup (String.mk civ)).getD (formatEnumValue civ)

/-- One extracted civilization entry. -/
structure CivInfo where
  leader : String
  civilization : String
  type : String
  isHuman : Bool
deriving DecidableEq, Repr

/-- Result shape of `extractCivsFromHeader`. -/
structure HeaderCivs where
  player : Option CivInfo
  aiCivs : List CivInfo
  cityStates : List String
deriving DecidableEq, Repr

/-- `replace(/_NAME$/, '')`. -/
def stripNameSuffix (r : List Char) : List Char :=
  if ("_NAME".data).isSuffixOf r then r.take (r.length - 5) else r

/-- The backward scan at one `CIVILIZATION_LEVEL_*` marker position: match
    all `CIVILIZATION_([A-Z_]+)` groups in the preceding ≤500-char window
    and take the last one not starting with `LEVEL`. -/
def nearestCivBefore (headerText : List Char) (pos : Nat) : Option (List Char) :=
  let sect := (headerText.take pos).drop (pos - 500)
  ((scanAll (anchorRun ("CIVILIZATION_".data) isTokenChar) sect).reverse.find?
    fun r => !(("LEVEL".data).isPrefixOf r))

/-- `extractCivsFromHeader(headerText)`. -/
def extractCivsFromHeader (headerText : List Char) : HeaderCivs :=
  let fullCivPositions := scanPositions ("CIVILIZATION_LEVEL_FULL_CIV".data) headerText
  let (_, allCivs) := fullCivPositions.foldl
    (fun (st : List (List Char) × List CivInfo) pos =>
      let (seen, acc) := st
      match nearestCivBefore headerText pos with
      | none => (seen, acc)
      | some r =>
        let civ := stripNameSuffix r
        if civ ∈ seen then (seen, acc)
        else
          let afterMarker := (headerText.take (pos + 100)).drop pos
          let isHuman := containsSub afterMarker ("Player".data)
          (civ :: seen,
           acc ++ [{ leader := getLeaderForCiv civ,
                     civilization := formatEnumValue civ,
                     type := "full_civ", isHuman := isHuman }]))
    ([], [])
  let csPositions := scanPositions ("CIVILIZATION_LEVEL_CITY_STATE".data) headerText
  let (_, cityStates) := csPositions.foldl
    (fun (st : List (List Char) × List String) pos =>
      let (seen, acc) := st
      match nearestCivBefore headerText pos with
      | none => (seen, acc)
      | some r =>
        let cs := stripNameSuffix r
        if cs ∈ seen then (seen, acc)
        else (cs :: seen, acc ++ [formatEnumValue cs]))
    ([], [])
  { player := allCivs.head?,
    aiCivs := allCivs.drop 1,
    cityStates := cityStates.take 15 }

/-- The static city → civilization table of `identifyCivFromCities`. -/
def cityToCiv : List (String × String) :=
  [("Hue", "VIETNAM"), ("Da Nang", "VIETNAM"), ("Hanoi", "VIETNAM"),
   ("Saigon", "VIETNAM"), ("Nha Trang", "VIETNAM"), ("Can Tho", "VIETNAM"),
   ("Hai Phong", "VIETNAM"), ("Vinh", "VIETNAM"), ("Thang Long", "VIETNAM"),
   ("Bien Hoa", "VIETNAM"),
   ("Tbilisi", "GEORGIA"), ("Kutaisi", "GEORGIA"), ("Batumi", "GEORGIA"),
   ("Persepolis", "PERSIA"), ("Pasargadae", "PERSIA"), ("Susa", "PERSIA"),
   ("Ottawa", "CANADA"), ("Toronto", "CANADA"), ("Montreal", "CANADA"),
   ("Amsterdam", "NETHERLANDS"), ("Rotterdam", "NETHERLANDS"),
   ("The Hague", "NETHERLANDS"),
   ("Istanbul", "OTTOMAN"), ("Ankara", "OTTOMAN"), ("Edirne", "OTTOMAN"),
   ("Rome", "ROME"), ("Antium", "ROME"), ("Cumae", "ROME"),
   ("Alexandria", "EGYPT"), ("Thebes", "EGYPT"), ("Memphis", "EGYPT")]

/-- `identifyCivFromCities(cities)`: first city present in the table wins. -/
def identifyCivFromCities (cities : List String) : Option String :=
  cities.findSome? fun city => cityToCiv.lookup city

/-! ### Decompressed content extractor -/

/-- `WONDER_NAMES`. -/
def WONDER_NAMES : List String :=
  ["PYRAMIDS", "STONEHENGE", "HANGING_GARDENS", "ORACLE", "COLOSSEUM",
   "PETRA", "TERRACOTTA_ARMY", "MACHU_PICCHU", "GREAT_LIBRARY",
   "GREAT_LIGHTHOUSE", "COLOSSUS", "ALHAMBRA", "CHICHEN_ITZA", "ANGKOR_WAT",
   "MONT_ST_MICHEL", "FORBIDDEN_CITY", "TAJ_MAHAL", "POTALA_PALACE",
   "ST_BASILS_CATHEDRAL", "BIG_BEN", "HERMITAGE", "BOLSHOI_THEATRE",
   "OXFORD_UNIVERSITY", "RUHR_VALLEY", "STATUE_OF_LIBERTY", "EIFFEL_TOWER",
   "BROADWAY", "CRISTO_REDENTOR", "SYDNEY_OPERA_HOUSE", "PANAMA_CANAL",
   "VENETIAN_ARSENAL", "GREAT_ZIMBABWE", "APADANA", "HUEY_TEOCALLI",
   "JEBEL_BARKAL", "KILWA_KISIWANI", "KOTOKU_IN", "MEENAKSHI_TEMPLE",
   "STATUE_OF_ZEUS", "TEMPLE_OF_ARTEMIS", "AMUNDSEN_SCOTT", "BIOSPHERE",
   "CASA_DE_CONTRATACION", "GOLDEN_GATE_BRIDGE", "GREAT_BATH",
   "HAGIA_SOPHIA", "MAUSOLEUM_HALICARNASSUS"]

/-- `isWonder(building)`. -/
def isWonder (building : List Char) : Bool :=
  let name := removeFirstSeq ("BUILDING_".data) building
  WONDER_NAMES.any fun w => (w.data).isPrefixOf name

/-- The `for (const suffix of suffixes) ... break` loop of
    `cleanWonderName`: strip the first matching suffix only. -/
def stripFirstSuffix (name : List Char) : List String → List Char
  | [] => name
  | s :: rest =>
    if (s.data).isSuffixOf name then name.take (name.length - s.length)
    else stripFirstSuffix name rest

/-- `cleanWonderName(building)`: strip the first matching localization
    suffix, then format. -/
def cleanWonderName (building : List Char) : String :=
  let name := removeFirstSeq ("BUILDING_".data) building
  formatEnumValue (stripFirstSuffix name
    ["_NAME", "_GOLD", "_PRODUCTION", "_CULTURE", "_FAITH", "_SCIENCE",
     "_DESCRIPTION", "_RANDOMCIVICBOOST", "_RANDOMTECHBOOST", "_QUOTE"])

/-- The city-state allow-list of `isCityState` in `parser.ts`. -/
def cityStateNames : List String :=
  ["HATTUSA", "KABUL", "SINGAPORE", "NGAZARGAMU", "HUNZA", "LA_VENTA",
   "AKKAD", "TARUGA", "BRUSSELS", "GENEVA", "BABYLON", "MUSCAT", "VALLETTA",
   "BUENOS_AIRES", "ANTANANARIVO", "ZANZIBAR", "KUMASI", "VILNIUS",
   "BOLOGNA", "FEZ", "JERUSALEM", "KANDY", "YEREVAN", "VATICAN_CITY",
   "AUCKLAND", "GRANADA", "CAHOKIA", "MITLA", "JOHANNESBURG", "NAZCA",
   "AYUTTHAYA", "CAGUANA", "CHINGUETTI", "HONG_KONG", "MOHENJO_DARO",
   "NAN_MADOL", "PRESLAV", "RAPA_NUI", "TORONTO", "WOLIN", "ARMAGH",
   "LAHORE", "SAMARKAND", "MOGADISHU", "NALANDA"]

/-- `isCityState(civ)` (substring containment against the allow-list). -/
def isCityState (civ : List Char) : Bool :=
  cityStateNames.any fun cs => containsSub civ (cs.data)

/-- `formatGreatPersonName(raw)`: strip the prefix and the first `_NAME`,
    then lowercase all but the first character of each word. -/
def formatGreatPersonName (tok : List Char) : String :=
  let t := removeFirstSeq ("_NAME".data)
    (removeFirstSeq ("GREAT_PERSON_INDIVIDUAL_".data) tok)
  String.mk (List.intercalate [' ']
    ((t.splitOn '_').map fun w =>
      match w with
      | [] => []
      | c :: cs => c :: cs.map Char.toLower))

/-- Anchored match for `/GREAT_PERSON_INDIVIDUAL_[A-Z_]+_NAME/`: the
    greedy `[A-Z_]+` backtracks until the literal `_NAME` matches, i.e.
    the match ends at the last `_NAME` occurrence in the token run that
    leaves at least one run character before it. -/
def anchorGreatPerson (l : List Char) : Option (List Char × Nat) :=
  let pre := "GREAT_PERSON_INDIVIDUAL_".data
  match dropLiteral pre l with
  | none => none
  | some rest =>
    let run := rest.takeWhile isTokenChar
    match ((indicesOfSeq ("_NAME".data) run).filter (1 ≤ ·)).getLast? with
    | none => none
    | some i => some (pre ++ run.take (i + 5), pre.length + i + 5)

/-- Full-token matches of `PREFIX[A-Z_]+` (prefix re-attached to each run). -/
def tokenMatches (pre : String) (text : List Char) : List (List Char) :=
  (scanAll (anchorRun (pre.data) isTokenChar) text).map fun r => pre.data ++ r

/-- The deduplicated technology tokens (`techs` before slicing). -/
def techsFull (text : List Char) : List (List Char) :=
  dedupFirst ((tokenMatches "TECH_" text).filter fun t =>
    !containsSub t ("BOOST".data) && !containsSub t ("GRANT".data))

/-- The deduplicated civic tokens. -/
def civicsFull (text : List Char) : List (List Char) :=
  dedupFirst (tokenMatches "CIVIC_" text)

/-- `wonderNamesClean` before slicing. -/
def wondersFull (text : List Char) : List String :=
  dedupFirst ((dedupFirst ((tokenMatches "BUILDING_" text).filter isWonder)).map
    cleanWonderName)

/-- The deduplicated great-person tokens. -/
def greatPeopleFull (text : List Char) : List (List Char) :=
  dedupFirst (scanAll anchorGreatPerson text)

/-- The city-state name list before slicing. -/
def cityStatesFull (text : List Char) : List String :=
  ((dedupFirst (tokenMatches "CIVILIZATION_" text)).map
      (removeFirstSeq ("CIVILIZATION_".data))
    |>.filter isCityState).map formatEnumValue

/-- The hard-coded Vietnam city allow-list. -/
def vietnamCities : List String :=
  ["THANG_LONG", "HUE", "HANOI", "SAIGON", "DA_NANG", "HAI_PHONG",
   "NHA_TRANG", "CAN_THO", "BIEN_HOA", "VINH"]

/-- `playerCities` (no slice in the source). -/
def playerCitiesOf (text : List Char) : List String :=
  (vietnamCities.filter fun c => containsSub text (c.data)).map fun c =>
    formatEnumValue (c.data)

/-- Result shape of `analyzeDecompressedData`. -/
structure DecompressedInfo where
  technologies : List String
  civics : List String
  wonders : List String
  greatPeople : List String
  cityStates : List String
  playerCities : List String
deriving DecidableEq, Repr

/-- `analyzeDecompressedData(data)`. -/
def analyzeDecompressedData (data : List Nat) : DecompressedInfo :=
  let text := decodeUtf8 data
  { technologies := ((techsFull text).take 20).map fun t =>
      formatEnumValue (removeFirstSeq ("TECH_".data) t),
    civics := ((civicsFull text).take 20).map fun c =>
      formatEnumValue (removeFirstSeq ("CIVIC_".data) c),
    wonders := (wondersFull text).take 15,
    greatPeople := ((greatPeopleFull text).take 15).map formatGreatPersonName,
    cityStates := (cityStatesFull text).take 12,
    playerCities := playerCitiesOf text }

/-! ### parseSaveFile -/

/-- The complete game state assembled by `parseSaveFile`.  The source
    flattens the identified player civ into its `leader`/`civilization`
    string fields; `playerCiv` additionally retains the whole record so
    that roster invariants can be stated.  The spread of decompressed
    extras is kept as one optional field.  The header-regex display fields
    (map type, era, difficulty, game version, mods) are pure pattern
    searches that cannot throw and are referenced by no claim, so they are
    not modelled. -/
structure GameState where
  leader : String
  civilization : String
  playerCiv : Option CivInfo
  turn : Nat
  gameSpeed : String
  mapSize : String
  otherCivs : List CivInfo
  cityStates : List String
  decompressed : Option DecompressedInfo
deriving DecidableEq, Repr

/-- `allCivs`: the header player (if any) followed by the header AI civs. -/
def allCivsOfHeader (hdr : HeaderCivs) : List CivInfo :=
  match hdr.player with
  | some p => p :: hdr.aiCivs
  | none => hdr.aiCivs

/-- The player-identification step of `parseSaveFile`: when decompressed
    player cities exist and `identifyCivFromCities` names a civilization,
    `findIndex` it in the roster (case-insensitive). -/
def cityMatchIdx (allCivs : List CivInfo)
    (decompressedInfo : Option DecompressedInfo) : Option Nat :=
  match decompressedInfo with
  | some info =>
    if info.playerCities.length > 0 then
      match identifyCivFromCities info.playerCities with
      | some playerCivName =>
        allCivs.findIdx? fun c => c.civilization.toUpper == playerCivName.toUpper
      | none => none
    else none
  | none => none

/-- The player/others split of `parseSaveFile`.  On a successful city
    match the chosen civ gets `isHuman = true` and the others are the
    roster minus that index; the fallback takes the first civ unchanged
    (its header-derived `isHuman` flag is *not* overwritten). -/
def pickPlayer (allCivs : List CivInfo) (cityMatch : Option Nat) :
    Option CivInfo × List CivInfo :=
  match cityMatch with
  | some i =>
    match allCivs.get? i with
    | some c => (some { c with isHuman := true }, allCivs.eraseIdx i)
    | none => (none, [])
  | none =>
    match allCivs with
    | [] => (none, [])
    | c :: rest => (some c, rest)

/-- The number of extracted records (player + others) with `isHuman`. -/
def humanCount (st : GameState) : Nat :=
  (match st.playerCiv with
   | some c => if c.isHuman then 1 else 0
   | none => 0) + (st.otherCivs.filter (·.isHuman)).length

/-- The turn-from-filename fallback `/AutoSave_(\d+)/`. -/
def autoSaveTurn (filename : List Char) : Option Nat :=
  firstMatch (fun l =>
    match dropLiteral ("AutoSave_".data) l with
    | none => none
    | some rest =>
      let ds := rest.takeWhile Char.isDigit
      if ds.isEmpty then none else some (digitsToNat ds)) filename

/-- `parseSaveFile`, on the file's bytes and base name.  Throwing is
    modelled by `Except.error`: the magic-byte check throws the
    descriptive error of the source, and each un-caught `readMarkerValue`
    call propagates its `RangeError`. -/
def parseSaveFile (inflate : List Nat → Option (List Nat))
    (buffer : List Nat) (filename : List Char) : Except String GameState := do
  let magic := decodeAscii (buffer.take 4)
  if magic ≠ "CIV6" then
    throw ("Invalid Civ6 save file: expected CIV6 magic bytes, got " ++ magic)
  let headerSection := decodeUtf8 (buffer.take (min buffer.length 150000))
  let turnData ← readMarkerValue buffer GAME_TURN
  let turnA : Nat := match turnData with
    | some (_, .int n) => n
    | _ => 0
  let turn := if turnA = 0 then (autoSaveTurn filename).getD 0 else turnA
  let speedData ← readMarkerValue buffer GAME_SPEED
  let gameSpeed := match speedData with
    | some (_, .str s) => formatEnumValue (removeFirstSeq ("GAMESPEED_".data) s)
    | _ => "Standard"
  let sizeData ← readMarkerValue buffer MAP_SIZE
  let mapSize := match sizeData with
    | some (_, .str s) => formatEnumValue (removeFirstSeq ("MAPSIZE_".data) s)
    | _ => "Unknown"
  let hdr := extractCivsFromHeader headerSection
  let allCivs := allCivsOfHeader hdr
  let decompressedInfo : Option DecompressedInfo :=
    (decompressGameData inflate buffer).map analyzeDecompressedData
  let picked := pickPlayer allCivs (cityMatchIdx allCivs decompressedInfo)
  let playerCiv := picked.1
  let otherCivs := picked.2.map fun c => { c with isHuman := false }
  return {
    leader := (playerCiv.map (·.leader)).getD "Unknown",
    civilization := (playerCiv.map (·.civilization)).getD "Unknown",
    playerCiv := playerCiv,
    turn := turn,
    gameSpeed := gameSpeed,
    mapSize := mapSize,
    otherCivs := otherCivs,
    cityStates := if hdr.cityStates.length > 0 then hdr.cityStates
      else (decompressedInfo.map (·.cityStates)).getD [],
    decompressed := decompressedInfo }

end Civ6.Parser

namespace Civ6.Logs

/-! ### src/index.ts — CSV telemetry aggregators

Lines are the result of `content.trim().split('\n')`; reading the file is
I/O and stays outside the model, so every function takes its file's line
list directly (a missing file is the degenerate empty list).  Cell strings
are handled as `List Char` (split on `','`, then trimmed), matching the
source's `line.split(',').map(v => v.trim())`. -/

/-- `line.split(',').map(v => v.trim())`. -/
def splitCells (line : String) : List (List Char) :=
  (line.data.splitOn ',').map jsTrim

/-- `parseInt(s, 10)`; `none` models `NaN`. -/
def jsParseInt (l : List Char) : Option Int :=
  match l.dropWhile isJsSpace with
  | '-' :: rest =>
    let ds := rest.takeWhile Char.isDigit
    if ds.isEmpty then none else some (-(digitsToNat ds : Int))
  | '+' :: rest =>
    let ds := rest.takeWhile Char.isDigit
    if ds.isEmpty then none else some ((digitsToNat ds : Int))
  | l2 =>
    let ds := l2.takeWhile Char.isDigit
    if ds.isEmpty then none else some ((digitsToNat ds : Int))

/-- `parseFloat` restricted to the digit-and-dot captures it is applied
    to; `none` models `NaN`.  Doubles are modelled as exact rationals —
    the parsed values are only stored, never computed with, in the claims
    considered. -/
def jsParseFloatL (l : List Char) : Option ℚ :=
  let ip := l.takeWhile Char.isDigit
  match l.drop ip.length with
  | '.' :: r2 =>
    let fp := r2.takeWhile Char.isDigit
    if ip.isEmpty && fp.isEmpty then none
    else some ((digitsToNat ip : ℚ) + (digitsToNat fp : ℚ) / ((10 : ℚ) ^ fp.length))
  | _ => if ip.isEmpty then none else some ((digitsToNat ip : ℚ))

/-- Character class `\w`. -/
def isWordChar (c : Char) : Bool :=
  c.isAlphanum || c = '_'

/-- Anchored match for `/(-?\d+):DIPLO_STATE_(\w+)/`. -/
def anchorDiplo (l : List Char) : Option (Int × String) :=
  let (neg, rest) :=
    match l with
    | '-' :: r => (true, r)
    | _ => (false, l)
  let ds := rest.takeWhile Char.isDigit
  if ds.isEmpty then none
  else
    match dropLiteral (":DIPLO_STATE_".data) (rest.drop ds.length) with
    | none => none
    | some r2 =>
      let ws := r2.takeWhile isWordChar
      if ws.isEmpty then none
      else some (if neg then -(digitsToNat ds : Int) else (digitsToNat ds : Int),
                 String.mk ws)

/-- `cellValue.match(/(-?\d+):DIPLO_STATE_(\w+)/)` reduced to its two
    captures. -/
def matchDiploState (cell : List Char) : Option (Int × String) :=
  firstMatch anchorDiplo cell

/-- Anchored match for `/([\d.]+):(\d+):([\d.]+)/`, returning
    `parseFloat` of the first and third captures (the middle rank capture
    is unused by the source). -/
def anchorThreatTrust (l : List Char) : Option (Option ℚ × Option ℚ) :=
  let isDigitDot : Char → Bool := fun c => c.isDigit || c = '.'
  let g1 := l.takeWhile isDigitDot
  if g1.isEmpty then none
  else
    match l.drop g1.length with
    | ':' :: r2 =>
      let g2 := r2.takeWhile Char.isDigit
      if g2.isEmpty then none
      else
        match r2.drop g2.length with
        | ':' :: r3 =>
          let g3 := r3.takeWhile isDigitDot
          if g3.isEmpty then none
          else some (jsParseFloatL g1, jsParseFloatL g3)
        | _ => none
    | _ => none

/-- `cellValue.match(/([\d.]+):(\d+):([\d.]+)/)` reduced to the threat and
    trust captures. -/
def matchThreatTrust (cell : List Char) : Option (Option ℚ × Option ℚ) :=
  firstMatch anchorThreatTrust cell

/-- The civilization name contributed by one data row of
    `Player_Stats.csv` (rows below two columns are skipped):
    `values[1].replace('CIVILIZATION_', '')`. -/
def rowCiv? (line : String) : Option (List Char) :=
  let values := splitCells line
  if values.length < 2 then none
  else some (removeFirstSeq ("CIVILIZATION_".data) (values.getD 1 []))

/-- The civilization names of all qualifying data rows, in file order. -/
def extractedCivSeq (lines : List String) : List (List Char) :=
  (lines.drop 1).filterMap rowCiv?

/-- `buildPlayerIdMap()`: first-seen civilization names, indexed from 0
    (a JavaScript `Map` iterates in insertion order, so the inverted map
    is the enumeration of the first-seen list). -/
def buildPlayerIdMap (lines : List String) : List (Nat × List Char) :=
  if lines.length < 2 then []
  else (dedupFirst (extractedCivSeq lines)).enum

/-- Rendering of a JavaScript number (only `NaN` and integers occur). -/
def jsNumToString : Option Int → List Char
  | none => "NaN".data
  | some i => if i < 0 then '-' :: natToChars (-i).toNat else natToChars i.toNat

/-- `getCivName(playerId, playerMap)`. -/
def getCivName (playerId : Option Int) (m : List (Nat × List Char)) : List Char :=
  let v : Option (List Char) :=
    match playerId with
    | some i => if i < 0 then none else m.lookup i.toNat
    | none => none
  v.getD ("Player ".data ++ jsNumToString playerId)

/-- `formatCivName(rawName)`. -/
def formatCivName (rawName : List Char) : String :=
  String.mk (List.intercalate [' '] ((rawName.splitOn '_').map fun w =>
    match w with
    | [] => []
    | c :: cs => c.toUpper :: cs.map Char.toLower))

/-- `===` on JavaScript numbers that may be `NaN` (`NaN === x` is false). -/
def jsEqNum : Option Int → Option Int → Bool
  | some a, some b => a == b
  | _, _ => false

/-- A directed diplomacy edge.  `threat`/`trust` are `Option ℚ` because a
    back-filled `parseFloat` can be `NaN`; both start at `some 0`. -/
structure DiplomaticRelation where
  fromCiv : String
  toCiv : String
  fromPlayerId : Option Int
  toPlayerId : Option Int
  state : String
  score : Int
  threat : Option ℚ
  trust : Option ℚ
deriving DecidableEq, Repr

/-- The first pass of `parseDiplomacy`: relation edges from the
    relationship-state cells of non-"Threat and Trust" rows.  Cell at
    enumeration index `i` sits in CSV column `i + 4`, so `toPlayerId = i`
    (`col - 4` in the source). -/
def diplomacyFirstPass (playerMap : List (Nat × List Char)) (lines : List String) :
    List DiplomaticRelation :=
  (lines.drop 1).foldl
    (fun rels line =>
      let parts := splitCells line
      if parts.length < 4 then rels
      else
        let fromPlayerId := jsParseInt (parts.getD 1 [])
        let action := parts.getD 2 []
        if action = "Threat and Trust".data then rels
        else
          rels ++ ((parts.drop 4).enum.filterMap fun ic =>
            let i := ic.1
            let cellValue := ic.2
            if cellValue.isEmpty then none
            else
              match matchDiploState cellValue with
              | none => none
              | some (score, state) =>
                let toPlayerId : Option Int := some (i : Int)
                if jsEqNum fromPlayerId toPlayerId then none
                else some {
                  fromCiv := formatCivName (getCivName fromPlayerId playerMap),
                  toCiv := formatCivName (getCivName toPlayerId playerMap),
                  fromPlayerId := fromPlayerId,
                  toPlayerId := toPlayerId,
                  state := state,
                  score := score,
                  threat := some 0,
                  trust := some 0 }))
    []

/-- One "Threat and Trust" cell: `(fromPlayerId, toPlayerId, threat, trust)`.
    The row's turn column is never read by the second pass. -/
def ttUpdates (lines : List String) : List (Option Int × Nat × Option ℚ × Option ℚ) :=
  (lines.drop 1).foldl
    (fun acc line =>
      let parts := splitCells line
      if parts.length < 4 ∨ parts.getD 2 [] ≠ "Threat and Trust".data then acc
      else
        let fromPlayerId := jsParseInt (parts.getD 1 [])
        acc ++ ((parts.drop 4).enum.filterMap fun ic =>
          if ic.2.isEmpty then none
          else (matchThreatTrust ic.2).map fun tt =>
            (fromPlayerId, ic.1, tt.1, tt.2)))
    []

/-- `relations.find(r => r.fromPlayerId === f && r.toPlayerId === t)`
    followed by the in-place threat/trust assignment: only the first
    matching edge is updated. -/
def updateFirstRel : List DiplomaticRelation → Option Int → Nat →
    Option ℚ → Option ℚ → List DiplomaticRelation
  | [], _, _, _, _ => []
  | r :: rest, f, t, th, tr =>
    if jsEqNum r.fromPlayerId f && jsEqNum r.toPlayerId (some (t : Int)) then
      { r with threat := th, trust := tr } :: rest
    else r :: updateFirstRel rest f t th tr

/-- `parseDiplomacy()`: first pass builds edges, second pass back-fills
    threat/trust cell by cell. -/
def parseDiplomacy (statsLines diploLines : List String) : List DiplomaticRelation :=
  if diploLines.length < 2 then []
  else
    let playerMap := buildPlayerIdMap statsLines
    let relations := diplomacyFirstPass playerMap diploLines
    (ttUpdates diploLines).foldl
      (fun rels u => updateFirstRel rels u.1 u.2.1 u.2.2.1 u.2.2.2) relations

end Civ6.Logs

namespace Civ6.Hist

/-! ### TOOLS.md (history-parser source) — per-turn statistics, trends -/

/-- One `CivStatistics` record (CSV parsing of `parseGameHistory` is
    upstream of the claims; the turn list is the input). -/
structure CivStat where
  civilization : String
  leader : String
  rawCivName : String
  isCityState : Bool
  turn : Int
  score : ℚ
  cities : Int
  population : Int
  sciencePerTurn : ℚ
  culturePerTurn : ℚ
  goldPerTurn : ℚ
  faithPerTurn : ℚ
  landUnits : Int
  navalUnits : Int
  goldBalance : ℚ
  faithBalance : ℚ
  techsResearched : Int
  civicsResearched : Int
  tilesOwned : Int
  tilesImproved : Int
deriving DecidableEq, Repr

/-- One entry of `history.turns` (sorted by turn by `parseGameHistory`). -/
structure TurnData where
  turn : Int
  civStats : List CivStat
deriving DecidableEq, Repr

/-- `Math.round` (half rounds toward +∞). -/
def jsRound (q : ℚ) : Int := ⌊q + 1 / 2⌋

/-- `{start, end, change, percentChange}` (`end` is a Lean keyword and is
    renamed `stop`). -/
structure ChangeStat where
  start : ℚ
  stop : ℚ
  change : ℚ
  percentChange : Int
deriving DecidableEq, Repr

/-- The `calcChange` closure of `analyzeTrends`. -/
def calcChange (start stop : ℚ) : ChangeStat :=
  { start := start, stop := stop, change := stop - start,
    percentChange := if start > 0 then jsRound ((stop - start) / start * 100) else 0 }

/-- Integer-change records for cities and techs. -/
structure CountChange where
  start : Int
  stop : Int
  change : Int
deriving DecidableEq, Repr

/-- One `CivTrend`. -/
structure CivTrend where
  civilization : String
  leader : String
  turnsAnalyzed : Int
  startTurn : Int
  endTurn : Int
  score : ChangeStat
  science : ChangeStat
  culture : ChangeStat
  gold : ChangeStat
  military : ChangeStat
  cities : CountChange
  territory : ChangeStat
  techs : CountChange
deriving DecidableEq, Repr

/-- The turns actually present within `[latestTurn - turnsBack, latestTurn]`
    (clamped below at turn 1). -/
def relevantTurnsOf (turnsBack : Int) (turns : List TurnData) : List TurnData :=
  let latestTurn := turns.getLastD ⟨0, []⟩
  let endTurnNum := latestTurn.turn
  let startTurnNum := max 1 (endTurnNum - turnsBack)
  turns.filter fun t => decide (startTurnNum ≤ t.turn) && decide (t.turn ≤ endTurnNum)

/-- The per-civilization body of the `analyzeTrends` loop: find the civ's
    rows at the two window endpoints and build its trend record, or skip
    the civ if it is absent at either endpoint. -/
def trendOf (actualStartTurn actualEndTurn : TurnData) (civ : CivStat) :
    Option CivTrend :=
  match actualStartTurn.civStats.find?
          (fun s => s.civilization == civ.civilization && !s.isCityState),
        actualEndTurn.civStats.find?
          (fun s => s.civilization == civ.civilization && !s.isCityState) with
  | some startStats, some endStats =>
    some {
      civilization := civ.civilization,
      leader := civ.leader,
      turnsAnalyzed := actualEndTurn.turn - actualStartTurn.turn,
      startTurn := actualStartTurn.turn,
      endTurn := actualEndTurn.turn,
      score := calcChange startStats.score endStats.score,
      science := calcChange startStats.sciencePerTurn endStats.sciencePerTurn,
      culture := calcChange startStats.culturePerTurn endStats.culturePerTurn,
      gold := calcChange startStats.goldPerTurn endStats.goldPerTurn,
      military := calcChange
        ((startStats.landUnits + startStats.navalUnits : Int) : ℚ)
        ((endStats.landUnits + endStats.navalUnits : Int) : ℚ),
      cities := { start := startStats.cities, stop := endStats.cities,
                  change := endStats.cities - startStats.cities },
      territory := calcChange (startStats.tilesOwned : ℚ) (endStats.tilesOwned : ℚ),
      techs := { start := startStats.techsResearched,
                 stop := endStats.techsResearched,
                 change := endStats.techsResearched - startStats.techsResearched } }
  | _, _ => none

/-- `analyzeTrends(turnsBack)` on the parsed turn history. -/
def analyzeTrends (turnsBack : Int) (turns : List TurnData) : Option (List CivTrend) :=
  if turns.length < 2 then none
  else
    let latestTurn := turns.getLastD ⟨0, []⟩
    let majorCivs := latestTurn.civStats.filter fun s => !s.isCityState
    if majorCivs.length = 0 then none
    else
      let relevantTurns := relevantTurnsOf turnsBack turns
      if relevantTurns.length < 2 then none
      else
        some (majorCivs.filterMap
          (trendOf (relevantTurns.headD ⟨0, []⟩) (relevantTurns.getLastD ⟨0, []⟩)))

/-- The major-civ rows of one turn. -/
def majorsOf (t : TurnData) : List CivStat :=
  t.civStats.filter fun s => !s.isCityState

/-- `getLatestTurnStatsFullCivsOnly()` on the parsed turn history (the
    `existsSync` / `parseGameHistory` file handling is upstream I/O). -/
def getLatestTurnStatsFullCivsOnly (turns : List TurnData) : Option (List CivStat) :=
  if turns.length = 0 then none
  else
    match turns.reverse.find?
        (fun t => !t.civStats.isEmpty && decide (1 < (majorsOf t).length)) with
    | some t => some (majorsOf t)
    | none => (turns.getLast?).map majorsOf

end Civ6.Hist

/-! ### Claim-side constructions and decidability instances -/

instance {e a : Type} [DecidableEq e] [DecidableEq a] : DecidableEq (Except e a) := fun x y =>
  match x, y with
  | .ok u, .ok v => if h : u = v then .isTrue (by rw [h]) else .isFalse (by simp [h])
  | .error u, .error v => if h : u = v then .isTrue (by rw [h]) else .isFalse (by simp [h])
  | .ok _, .error _ => .isFalse (by simp)
  | .error _, .ok _ => .isFalse (by simp)

namespace Civ6.Parser

/-- The synthetic chunked stream of claim C2: a compressed stream `C` cut
    into blocks of exactly 65536 bytes, each full block followed by the
    4 framing bytes `fr k`; a final block shorter than (or exactly) 65536
    bytes is emitted as is. -/
def chunkify (C : List Nat) (fr : Nat → List Nat) (k : Nat) : List Nat :=
  if C.length ≤ 65536 then C
  else C.take 65536 ++ fr k ++ chunkify (C.drop 65536) fr (k + 1)
termination_by C.length
decreasing_by
  rename_i h
  simp only [List.length_drop]
  omega

end Civ6.Parser

namespace Civ6

/-! ### Concrete inputs used by witnesses and counterexamples -/

/-- A tiny stand-in compressed stream: zlib header, three payload bytes,
    and the `00 00 FF FF` sync-flush sentinel. -/
def c2C : List Nat := [0x78, 0x9C, 1, 2, 3, 0, 0, 0xFF, 0xFF]

/-- Arbitrary 4-byte framing for every chunk boundary. -/
def c2fr : Nat → List Nat := fun _ => [9, 9, 9, 9]

/-- A codec that inflates exactly `c2C` to the plaintext `[42]`. -/
def c2inflate : List Nat → Option (List Nat) :=
  fun l => if l = c2C then some [42] else none

/-- An `AI_Diplomacy.csv` whose only "Threat and Trust" row (turn 99)
    shares no turn with the only edge-producing row (turn 1). -/
def c5Lines : List String :=
  ["Game Turn, Player, Action, Data, 0, 1",
   "1,0,Friendship,x,,5:DIPLO_STATE_FRIENDLY",
   "99,0,Threat and Trust,x,,60:1:32"]

/-- An `AI_Diplomacy.csv` with one relationship row and no
    "Threat and Trust" rows at all. -/
def c5bLines : List String :=
  ["Game Turn, Player, Action, Data, 0, 1",
   "1,0,Friendship,x,,5:DIPLO_STATE_FRIENDLY"]

/-- An `AI_Diplomacy.csv` row from player 1 whose column-5 cell would
    derive `toPlayerId = 1` (a self-relation) and whose column-6 cell
    derives `toPlayerId = 2`. -/
def c9Lines : List String :=
  ["Game Turn, Player, Action, Data, 0, 1, 2",
   "1,1,Friendship,x,,3:DIPLO_STATE_WAR,4:DIPLO_STATE_ALLIED"]

/-- One statistics row for witness histories. -/
def c6Stat (civ : String) (t : Int) : Hist.CivStat :=
  { civilization := civ, leader := civ, rawCivName := civ, isCityState := false,
    turn := t, score := 0, cities := 1, population := 1, sciencePerTurn := 0,
    culturePerTurn := 0, goldPerTurn := 0, faithPerTurn := 0, landUnits := 0,
    navalUnits := 0, goldBalance := 0, faithBalance := 0, techsResearched := 0,
    civicsResearched := 0, tilesOwned := 0, tilesImproved := 0 }

/-- A sparse history with statistics at turns 1, 5, 9 and 15 only. -/
def c6Turns : List Hist.TurnData :=
  [⟨1, [c6Stat "Rome" 1, c6Stat "Egypt" 1]⟩,
   ⟨5, [c6Stat "Rome" 5, c6Stat "Egypt" 5]⟩,
   ⟨9, [c6Stat "Rome" 9, c6Stat "Egypt" 9]⟩,
   ⟨15, [c6Stat "Rome" 15, c6Stat "Egypt" 15]⟩]

/-- A history whose last turn is mid-turn (only one major civ logged):
    the previous turn is the most recent complete one. -/
def c10Turns : List Hist.TurnData :=
  [⟨1, [c6Stat "Rome" 1, c6Stat "Egypt" 1]⟩,
   ⟨2, [c6Stat "Rome" 2, c6Stat "Egypt" 2]⟩,
   ⟨3, [c6Stat "Rome" 3]⟩]

/-- A minimal save buffer: `CIV6` magic, one full civ in the header with
    no "Player" token within 100 characters after its level marker, no
    binary markers, no compressed segment. -/
def c7Buf : List Nat :=
  ("CIV6 CIVILIZATION_GEORGIA CIVILIZATION_LEVEL_FULL_CIV end").data.map Char.toNat

/-- The game state `parseSaveFile` produces from `c7Buf`: the fallback
    player civ keeps its header-derived `isHuman = false`. -/
def c7State : Parser.GameState :=
  { leader := "Tamar", civilization := "Georgia",
    playerCiv := some ⟨"Tamar", "Georgia", "full_civ", false⟩,
    turn := 0, gameSpeed := "Standard", mapSize := "Unknown",
    otherCivs := [], cityStates := [], decompressed := none }

/-- Decompressed-section bytes containing 13 distinct known city-state
    tokens. -/
def c8Bytes : List Nat :=
  ("CIVILIZATION_HATTUSA CIVILIZATION_KABUL CIVILIZATION_SINGAPORE CIVILIZATION_AKKAD CIVILIZATION_GENEVA CIVILIZATION_BABYLON CIVILIZATION_MUSCAT CIVILIZATION_VALLETTA CIVILIZATION_KUMASI CIVILIZATION_VILNIUS CIVILIZATION_BOLOGNA CIVILIZATION_FEZ CIVILIZATION_JERUSALEM").data.map
    Char.toNat

end Civ6

/-! ## Theorems -/

namespace Civ6

/-! ### Shared helper lemmas -/

/-- Searching from the end of a known prefix ignores that prefix. -/
theorem findSeqFrom_append {α : Type} [DecidableEq α] (pre xs pat : List α) :
    findSeqFrom (pre ++ xs) pat pre.length = (findSeq xs pat).map (pre.length + ·) := by
  unfold findSeqFrom
  rw [List.drop_left]

/-- `subarray` cuts the middle list back out of a framed append. -/
theorem subarray_append_mid (pre xs post : List Nat) :
    subarray (pre ++ xs ++ post) pre.length (pre.length + xs.length) = xs := by
  unfold subarray
  rw [List.append_assoc, List.take_append_eq_append_take]
  simp [List.take_left', List.take_append_eq_append_take, List.drop_left']

end Civ6

namespace Civ6

/-- Reassembly inverts the claim's chunk construction (fuel induction on
    the stream length). -/
theorem reassemble_chunkify (fr : Nat → List Nat) (h4 : ∀ k, (fr k).length = 4) :
    ∀ (n : Nat) (C : List Nat) (k : Nat), C.length ≤ n →
      Parser.reassemble (Parser.chunkify C fr k) = C := by
  intro n
  induction n with
  | zero =>
    intro C k hC
    have hnil : C = [] := List.length_eq_zero.mp (Nat.le_zero.mp hC)
    subst hnil
    simp [Parser.chunkify, Parser.reassemble]
  | succ n ih =>
    intro C k hC
    by_cases h : C.length ≤ 65536
    · rw [Parser.chunkify, if_pos h]
      rw [Parser.reassemble]
      by_cases hnil : C = []
      · simp [hnil]
      · rw [if_neg hnil]
        have hdrop : C.drop (65536 + 4) = [] := by
          apply List.drop_eq_nil_of_le
          omega
        rw [hdrop, List.take_of_length_le h]
        simp [Parser.reassemble]
    · rw [Parser.chunkify, if_neg h]
      have htl : (C.take 65536).length = 65536 := by
        simp [List.length_take]
        omega
      have hne : C.take 65536 ++ fr k ++ Parser.chunkify (C.drop 65536) fr (k + 1) ≠ [] := by
        intro habs
        have := congrArg List.length habs
        simp [htl] at this
      rw [Parser.reassemble, if_neg hne]
      have htake : (C.take 65536 ++ fr k ++ Parser.chunkify (C.drop 65536) fr (k + 1)).take 65536
          = C.take 65536 := by
        rw [List.append_assoc, List.take_append_eq_append_take, htl]
        simp
      have hdrop : (C.take 65536 ++ fr k ++ Parser.chunkify (C.drop 65536) fr (k + 1)).drop (65536 + 4)
          = Parser.chunkify (C.drop 65536) fr (k + 1) := by
        rw [List.append_assoc, List.drop_append_eq_append_drop, htl]
        simp [List.drop_append_eq_append_drop, h4 k]
      rw [htake, hdrop, ih (C.drop 65536) (k + 1) (by simp [List.length_drop]; omega)]
      exact List.take_append_drop 65536 C

/-- C2: compressed-segment extraction round-trips.  If a compressed
    stream `C` (inflating to plaintext `P`) is split into 65536-byte
    chunks each followed by 4 arbitrary framing bytes (the final chunk
    possibly shorter than 65536 bytes), and the result is embedded in a
    buffer so that the zlib-header search from byte offset 200000 finds
    the segment's start and the `00 00 FF FF` sentinel search finds the
    segment's last four bytes, then `decompressGameData` returns exactly
    `P`. -/
theorem C2_decompress_roundtrip
    (inflate : List Nat → Option (List Nat)) (P C pre post buffer : List Nat)
    (fr : Nat → List Nat)
    (hfr : ∀ k, (fr k).length = 4)
    (hbuf : buffer = pre ++ Parser.chunkify C fr 0 ++ post)
    (hlen : 4 < (Parser.chunkify C fr 0).length)
    (hstart : findSeqFrom buffer Parser.ZLIB_HEADER 200000 = some pre.length)
    (hend : findSeqFrom buffer Parser.COMPRESSED_DATA_END pre.length
      = some (pre.length + (Parser.chunkify C fr 0).length - 4))
    (hinf : inflate C = some P) :
    Parser.decompressGameData inflate buffer = some P := by
  simp only [Parser.decompressGameData, hstart, hend]
  have hgt : ¬(pre.length + (Parser.chunkify C fr 0).length - 4 ≤ pre.length) := by
    omega
  rw [if_neg hgt]
  have harith : pre.length + (Parser.chunkify C fr 0).length - 4
      + Parser.COMPRESSED_DATA_END.length
      = pre.length + (Parser.chunkify C fr 0).length := by
    simp [Parser.COMPRESSED_DATA_END]
    omega
  rw [harith, hbuf, subarray_append_mid,
    reassemble_chunkify fr hfr C.length C 0 (le_refl _), hinf]

end Civ6

namespace Civ6

/-- Witness for C2 at a concrete embedding: a 200000-byte zero prefix,
    the chunked stream (a single short chunk), and a 2-byte tail. -/
theorem C2_decompress_roundtrip_witness :
    Parser.decompressGameData c2inflate
      (List.replicate 200000 0 ++ Parser.chunkify c2C c2fr 0 ++ [5, 5]) = some [42] := by
  have hch : Parser.chunkify c2C c2fr 0 = c2C := by
    rw [Parser.chunkify, if_pos (by decide)]
  have hpre : (List.replicate 200000 (0 : Nat)).length = 200000 :=
    List.length_replicate 200000 0
  refine C2_decompress_roundtrip c2inflate [42] c2C (List.replicate 200000 0) [5, 5] _
    c2fr (fun k => rfl) rfl ?_ ?_ ?_ ?_
  · rw [hch]
    decide
  · rw [List.append_assoc, hch, hpre]
    have h := findSeqFrom_append (List.replicate 200000 (0 : Nat)) (c2C ++ [5, 5])
      Parser.ZLIB_HEADER
    rw [hpre] at h
    rw [h]
    decide
  · rw [List.append_assoc, hch, hpre]
    have h := findSeqFrom_append (List.replicate 200000 (0 : Nat)) (c2C ++ [5, 5])
      Parser.COMPRESSED_DATA_END
    rw [hpre] at h
    rw [h]
    decide
  · decide

end Civ6

namespace Civ6

/-- C3: tag-value decoding is offset-exact.  With the first occurrence of
    the 4-byte marker at offset `p`: if the little-endian type tag at
    `p + 4` is 2, `readMarkerValue` returns exactly the 4-byte
    little-endian integer at `p + 16`; if the tag is 5 with a 2-byte
    little-endian declared length `L` at `p + 8`, it returns exactly the
    decoded `L - 1` bytes starting at `p + 16` (the trailing null byte
    excluded). -/
theorem C3_readMarkerValue_offset_exact
    (buffer marker : List Nat) (p : Nat)
    (hfind : findSeq buffer marker = some p) :
    (∀ n, read32 buffer (p + 4) = some 2 → read32 buffer (p + 16) = some n →
      Parser.readMarkerValue buffer marker = .ok (some (2, .int n))) ∧
    (∀ L, read32 buffer (p + 4) = some 5 → read16 buffer (p + 8) = some L →
      Parser.readMarkerValue buffer marker =
        .ok (some (5, .str (decodeUtf8 ((buffer.drop (p + 16)).take (L - 1)))))) := by
  constructor
  · intro n h2 h16
    unfold Parser.readMarkerValue
    rw [hfind]
    simp [h2, h16]
    rfl
  · intro L h5 h8
    unfold Parser.readMarkerValue
    rw [hfind]
    simp [h5, h8]
    rfl

/-- Witness for C3: an integer marker value and a string marker value at
    concrete buffers (marker at offset 0, tag at 4, payload at 16). -/
theorem C3_readMarkerValue_offset_exact_witness :
    Parser.readMarkerValue
        [0x9D, 0x2C, 0xE6, 0xBD, 2, 0, 0, 0, 0, 0, 0, 0, 0, 0, 0, 0, 7, 0, 0, 0]
        Parser.GAME_TURN = .ok (some (2, .int 7)) ∧
    Parser.readMarkerValue
        [0x99, 0xB0, 0xD9, 0x05, 5, 0, 0, 0, 6, 0, 0, 0, 0, 0, 0, 0, 72, 69, 76, 76, 79, 0]
        Parser.GAME_SPEED = .ok (some (5, .str "HELLO".data)) := by
  constructor
  · exact (C3_readMarkerValue_offset_exact _ Parser.GAME_TURN 0 (by decide)).1
      7 (by decide) (by decide)
  · rw [(C3_readMarkerValue_offset_exact _ Parser.GAME_SPEED 0 (by decide)).2
      6 (by decide) (by decide)]
    decide

end Civ6

namespace Civ6

/-- C1 is false as stated: this buffer's first four bytes are the ASCII
    string `CIV6`, yet `parseSaveFile` throws — the `GAME_TURN` marker
    sits at the end of the buffer and the type-tag `readUInt32LE` at
    `pos + 4` runs out of range, an error no `try` block catches. -/
theorem C1_counterexample :
    decodeAscii ([67, 73, 86, 54, 0x9D, 0x2C, 0xE6, 0xBD].take 4) = "CIV6" ∧
    Parser.parseSaveFile (fun _ => none) [67, 73, 86, 54, 0x9D, 0x2C, 0xE6, 0xBD] [] =
      .error "ERR_OUT_OF_RANGE" := by
  constructor
  · decide
  · decide

/-- C1 (amended): `parseSaveFile` throws the descriptive magic-byte error
    (naming the ascii-decoded magic found) exactly when the 7-bit-masked
    decode of the first four bytes differs from `CIV6`; when the magic
    matches and every marker lookup stays in bounds, it never throws. -/
theorem C1_parse_magic_amended
    (inflate : List Nat → Option (List Nat)) (buffer : List Nat) (filename : List Char) :
    (decodeAscii (buffer.take 4) ≠ "CIV6" →
      Parser.parseSaveFile inflate buffer filename =
        .error ("Invalid Civ6 save file: expected CIV6 magic bytes, got "
          ++ decodeAscii (buffer.take 4))) ∧
    (decodeAscii (buffer.take 4) = "CIV6" →
      (Parser.readMarkerValue buffer Parser.GAME_TURN).isOk = true →
      (Parser.readMarkerValue buffer Parser.GAME_SPEED).isOk = true →
      (Parser.readMarkerValue buffer Parser.MAP_SIZE).isOk = true →
      (Parser.parseSaveFile inflate buffer filename).isOk = true) := by
  constructor
  · intro h
    simp [Parser.parseSaveFile, h]
    rfl
  · intro hmagic h1 h2 h3
    rcases e1 : Parser.readMarkerValue buffer Parser.GAME_TURN with v1 | v1
    · rw [e1] at h1
      simp [Except.isOk, Except.toBool] at h1
    rcases e2 : Parser.readMarkerValue buffer Parser.GAME_SPEED with v2 | v2
    · rw [e2] at h2
      simp [Except.isOk, Except.toBool] at h2
    rcases e3 : Parser.readMarkerValue buffer Parser.MAP_SIZE with v3 | v3
    · rw [e3] at h3
      simp [Except.isOk, Except.toBool] at h3
    simp [Parser.parseSaveFile, hmagic, e1, e2, e3, Except.isOk, Except.toBool]
    rfl

/-- Witness for C1 (amended) at two concrete buffers: a wrong-magic
    buffer throws the descriptive error; a magic-only buffer (no markers
    present, so every lookup is in bounds) parses without throwing. -/
theorem C1_parse_magic_amended_witness :
    (decodeAscii ([0, 1].take 4) ≠ "CIV6" ∧
      Parser.parseSaveFile (fun _ => none) [0, 1] [] =
        .error ("Invalid Civ6 save file: expected CIV6 magic bytes, got "
          ++ decodeAscii ([0, 1].take 4))) ∧
    (decodeAscii ([67, 73, 86, 54].take 4) = "CIV6" ∧
      (Parser.parseSaveFile (fun _ => none) [67, 73, 86, 54] []).isOk = true) := by
  refine ⟨⟨by decide, (C1_parse_magic_amended _ _ _).1 (by decide)⟩,
    ⟨by decide, (C1_parse_magic_amended _ _ _).2 (by decide) (by decide) (by decide)
      (by decide)⟩⟩

end Civ6

namespace Civ6

/-- C4: `buildPlayerIdMap` is a pure function of the first-seen order of
    civilization names: a statistics file whose data rows list
    civilizations in order `[A, B, A, Co, B]` (pairwise distinct names)
    resolves to exactly `{0 ↦ A, 1 ↦ B, 2 ↦ Co}`; repetition never
    changes an already-assigned index and indices are sequential from 0. -/
theorem C4_buildPlayerIdMap_first_seen
    (lines : List String) (A B Co : List Char)
    (hseq : Logs.extractedCivSeq lines = [A, B, A, Co, B])
    (hAB : A ≠ B) (hAC : A ≠ Co) (hBC : B ≠ Co) :
    Logs.buildPlayerIdMap lines = [(0, A), (1, B), (2, Co)] := by
  have hlen : ¬ lines.length < 2 := by
    intro hl
    have hnil : lines.drop 1 = [] := by
      apply List.drop_eq_nil_of_le
      omega
    have h5 : Logs.extractedCivSeq lines = [] := by
      unfold Logs.extractedCivSeq
      rw [hnil]
      rfl
    rw [hseq] at h5
    exact List.cons_ne_nil _ _ h5
  unfold Logs.buildPlayerIdMap
  rw [if_neg hlen, hseq]
  simp [dedupFirst, List.enum, List.enumFrom, Ne.symm hAB, Ne.symm hAC, Ne.symm hBC]

/-- Witness for C4: a concrete `Player_Stats.csv` whose rows list
    Georgia, Rome, Georgia, Persia, Rome. -/
theorem C4_witness :
    Logs.extractedCivSeq
        ["Game Turn, Player", "1, CIVILIZATION_GEORGIA, 4", "1, CIVILIZATION_ROME, 3",
         "2, CIVILIZATION_GEORGIA, 5", "2, CIVILIZATION_PERSIA, 2", "3, CIVILIZATION_ROME, 4"]
      = ["GEORGIA".data, "ROME".data, "GEORGIA".data, "PERSIA".data, "ROME".data] ∧
    Logs.buildPlayerIdMap
        ["Game Turn, Player", "1, CIVILIZATION_GEORGIA, 4", "1, CIVILIZATION_ROME, 3",
         "2, CIVILIZATION_GEORGIA, 5", "2, CIVILIZATION_PERSIA, 2", "3, CIVILIZATION_ROME, 4"]
      = [(0, "GEORGIA".data), (1, "ROME".data), (2, "PERSIA".data)] :=
  ⟨by decide,
   C4_buildPlayerIdMap_first_seen _ _ _ _ (by decide) (by decide) (by decide) (by decide)⟩

end Civ6

namespace Civ6.Logs

/-- Every edge built by the first pass starts with zero threat/trust and
    never relates a player to itself. -/
theorem mem_diplomacyFirstPass (pm : List (Nat × List Char)) (lines : List String)
    (r : DiplomaticRelation) (hr : r ∈ diplomacyFirstPass pm lines) :
    r.threat = some 0 ∧ r.trust = some 0 ∧ r.fromPlayerId ≠ r.toPlayerId := by
  unfold diplomacyFirstPass at hr
  -- generalized foldl invariant
  suffices h : ∀ (ls : List String) (acc : List DiplomaticRelation),
      (∀ x ∈ acc, x.threat = some 0 ∧ x.trust = some 0 ∧ x.fromPlayerId ≠ x.toPlayerId) →
      ∀ x ∈ ls.foldl (fun rels line =>
        let parts := splitCells line
        if parts.length < 4 then rels
        else
          let fromPlayerId := jsParseInt (parts.getD 1 [])
          let action := parts.getD 2 []
          if action = "Threat and Trust".data then rels
          else
            rels ++ ((parts.drop 4).enum.filterMap fun ic =>
              let i := ic.1
              let cellValue := ic.2
              if cellValue.isEmpty then none
              else
                match matchDiploState cellValue with
                | none => none
                | some (score, state) =>
                  let toPlayerId : Option Int := some (i : Int)
                  if jsEqNum fromPlayerId toPlayerId then none
                  else some {
                    fromCiv := formatCivName (getCivName fromPlayerId pm),
                    toCiv := formatCivName (getCivName toPlayerId pm),
                    fromPlayerId := fromPlayerId,
                    toPlayerId := toPlayerId,
                    state := state,
                    score := score,
                    threat := some 0,
                    trust := some 0 })) acc,
      x.threat = some 0 ∧ x.trust = some 0 ∧ x.fromPlayerId ≠ x.toPlayerId by
    exact h _ [] (by intro x hx; exact absurd hx (List.not_mem_nil x)) r hr
  intro ls
  induction ls with
  | nil => intro acc hacc x hx; exact hacc x hx
  | cons line rest ih =>
    intro acc hacc x hx
    refine ih _ ?_ x hx
    intro y hy
    by_cases h4 : (splitCells line).length < 4
    · simp only [h4, if_true] at hy
      exact hacc y hy
    · simp only [h4, if_false] at hy
      by_cases htt : (splitCells line).getD 2 [] = "Threat and Trust".data
      · simp only [htt, if_true] at hy
        exact hacc y hy
      · simp only [htt, if_false] at hy
        rcases List.mem_append.mp hy with hmem | hmem
        · exact hacc y hmem
        · rcases List.mem_filterMap.mp hmem with ⟨ic, _, hic⟩
          split at hic
          · exact absurd hic (by simp)
          · split at hic
            · exact absurd hic (by simp)
            · split at hic
              · exact absurd hic (by simp)
              · rename_i heq
                have hrec := Option.some.inj hic
                subst hrec
                refine ⟨rfl, rfl, ?_⟩
                intro habs
                have habs2 : jsParseInt ((splitCells line).getD 1 [])
                    = some (ic.1 : Int) := habs
                apply heq
                rw [habs2]
                simp [jsEqNum]

end Civ6.Logs

namespace Civ6.Logs

/-- An edge that matches no update's `(fromPlayerId, toPlayerId)` pair is
    returned by `updateFirstRel` untouched, hence was already present. -/
theorem updateFirstRel_no_match (rels : List DiplomaticRelation) (f : Option Int)
    (t : Nat) (th tr : Option ℚ) (r : DiplomaticRelation)
    (hr : r ∈ updateFirstRel rels f t th tr)
    (hno : (jsEqNum r.fromPlayerId f && jsEqNum r.toPlayerId (some (t : Int))) = false) :
    r ∈ rels := by
  induction rels with
  | nil =>
    rw [updateFirstRel] at hr
    exact hr
  | cons x rest ih =>
    rw [updateFirstRel] at hr
    by_cases hc : (jsEqNum x.fromPlayerId f && jsEqNum x.toPlayerId (some (t : Int))) = true
    · rw [if_pos hc] at hr
      rcases List.mem_cons.mp hr with hEq | hmem
      · subst hEq
        have hno2 : (jsEqNum x.fromPlayerId f && jsEqNum x.toPlayerId (some (t : Int)))
            = false := hno
        rw [hc] at hno2
        simp at hno2
      · exact List.mem_cons_of_mem _ hmem
    · rw [if_neg hc] at hr
      rcases List.mem_cons.mp hr with hEq | hmem
      · exact hEq ▸ List.mem_cons_self x rest
      · exact List.mem_cons_of_mem _ (ih hmem)

/-- `updateFirstRel` only rewrites threat/trust: every output edge keeps
    the player ids of some input edge. -/
theorem updateFirstRel_ids (rels : List DiplomaticRelation) (f : Option Int)
    (t : Nat) (th tr : Option ℚ) (r : DiplomaticRelation)
    (hr : r ∈ updateFirstRel rels f t th tr) :
    ∃ r0 ∈ rels, r.fromPlayerId = r0.fromPlayerId ∧ r.toPlayerId = r0.toPlayerId := by
  induction rels with
  | nil =>
    rw [updateFirstRel] at hr
    exact absurd hr (List.not_mem_nil r)
  | cons x rest ih =>
    rw [updateFirstRel] at hr
    by_cases hc : (jsEqNum x.fromPlayerId f && jsEqNum x.toPlayerId (some (t : Int))) = true
    · rw [if_pos hc] at hr
      rcases List.mem_cons.mp hr with hEq | hmem
      · exact ⟨x, List.mem_cons_self _ _, by subst hEq; exact ⟨rfl, rfl⟩⟩
      · exact ⟨r, List.mem_cons_of_mem _ hmem, rfl, rfl⟩
    · rw [if_neg hc] at hr
      rcases List.mem_cons.mp hr with hEq | hmem
      · exact ⟨x, List.mem_cons_self _ _, by subst hEq; exact ⟨rfl, rfl⟩⟩
      · obtain ⟨r0, hr0, h1, h2⟩ := ih hmem
        exact ⟨r0, List.mem_cons_of_mem _ hr0, h1, h2⟩

/-- Folding the whole update list over edges that match no update leaves
    them in the initial edge list. -/
theorem foldl_updates_no_match (updates : List (Option Int × Nat × Option ℚ × Option ℚ))
    (rels : List DiplomaticRelation) (r : DiplomaticRelation)
    (hr : r ∈ updates.foldl
      (fun rels u => updateFirstRel rels u.1 u.2.1 u.2.2.1 u.2.2.2) rels)
    (hno : ∀ u ∈ updates,
      (jsEqNum r.fromPlayerId u.1 && jsEqNum r.toPlayerId (some (u.2.1 : Int))) = false) :
    r ∈ rels := by
  induction updates generalizing rels with
  | nil => exact hr
  | cons u rest ih =>
    have hmem := ih (updateFirstRel rels u.1 u.2.1 u.2.2.1 u.2.2.2) hr
      (fun v hv => hno v (List.mem_cons_of_mem _ hv))
    exact updateFirstRel_no_match _ _ _ _ _ _ hmem (hno u (List.mem_cons_self _ _))

/-- Folding the update list never changes an edge's player ids. -/
theorem foldl_updates_ids (updates : List (Option Int × Nat × Option ℚ × Option ℚ))
    (rels : List DiplomaticRelation) (r : DiplomaticRelation)
    (hr : r ∈ updates.foldl
      (fun rels u => updateFirstRel rels u.1 u.2.1 u.2.2.1 u.2.2.2) rels) :
    ∃ r0 ∈ rels, r.fromPlayerId = r0.fromPlayerId ∧ r.toPlayerId = r0.toPlayerId := by
  induction updates generalizing rels with
  | nil => exact ⟨r, hr, rfl, rfl⟩
  | cons u rest ih =>
    obtain ⟨r1, hr1, h1, h2⟩ := ih _ hr
    obtain ⟨r0, hr0, h3, h4⟩ := updateFirstRel_ids _ _ _ _ _ _ hr1
    exact ⟨r0, hr0, h1.trans h3, h2.trans h4⟩

end Civ6.Logs

namespace Civ6

/-- C9: every `DiplomaticRelation` returned by `parseDiplomacy` has
    `fromPlayerId` different from `toPlayerId`: a relationship cell whose
    column position derives a `toPlayerId` equal to the row's
    `fromPlayerId` produces no output edge, and the threat/trust pass
    never changes player ids. -/
theorem C9_no_self_relations (statsLines diploLines : List String)
    (r : Logs.DiplomaticRelation) (hr : r ∈ Logs.parseDiplomacy statsLines diploLines) :
    r.fromPlayerId ≠ r.toPlayerId := by
  unfold Logs.parseDiplomacy at hr
  by_cases hl : diploLines.length < 2
  · rw [if_pos hl] at hr
    exact absurd hr (List.not_mem_nil r)
  · rw [if_neg hl] at hr
    obtain ⟨r0, hr0, h1, h2⟩ := Logs.foldl_updates_ids _ _ _ hr
    have h3 := Logs.mem_diplomacyFirstPass _ _ _ hr0
    rw [h1, h2]
    exact h3.2.2

/-- C5 (amended): threat and trust are back-filled onto an edge only from
    a "Threat and Trust" cell whose exact `(fromPlayerId, toPlayerId)`
    pair matches the edge — the row's turn is ignored and only the first
    matching edge is updated; every edge matched by no threat-and-trust
    cell retains `threat = 0` and `trust = 0`. -/
theorem C5_backfill_amended (statsLines diploLines : List String)
    (r : Logs.DiplomaticRelation) (hr : r ∈ Logs.parseDiplomacy statsLines diploLines)
    (hno : ∀ u ∈ Logs.ttUpdates diploLines,
      (Logs.jsEqNum r.fromPlayerId u.1
        && Logs.jsEqNum r.toPlayerId (some (u.2.1 : Int))) = false) :
    r.threat = some 0 ∧ r.trust = some 0 := by
  unfold Logs.parseDiplomacy at hr
  by_cases hl : diploLines.length < 2
  · rw [if_pos hl] at hr
    exact absurd hr (List.not_mem_nil r)
  · rw [if_neg hl] at hr
    have hmem := Logs.foldl_updates_no_match _ _ _ hr hno
    have h3 := Logs.mem_diplomacyFirstPass _ _ _ hmem
    exact ⟨h3.1, h3.2.1⟩

end Civ6

namespace Civ6

/-- C5 is false as stated: here the only "Threat and Trust" row is at
    turn 99 while the only edge-producing row is at turn 1, so no
    threat-and-trust row shares the edge row's (turn, fromPlayer) key —
    yet the edge is back-filled with threat 60 / trust 32, because the
    second pass matches on `(fromPlayerId, toPlayerId)` only and never
    reads the turn column. -/
theorem C5_counterexample :
    Logs.parseDiplomacy [] c5Lines =
      [{ fromCiv := "Player 0", toCiv := "Player 1", fromPlayerId := some 0,
         toPlayerId := some 1, state := "FRIENDLY", score := 5,
         threat := some 60, trust := some 32 }] ∧
    (Logs.splitCells (c5Lines.getD 2 "")).getD 2 [] = "Threat and Trust".data ∧
    Logs.jsParseInt ((Logs.splitCells (c5Lines.getD 2 "")).getD 0 []) = some 99 ∧
    Logs.jsParseInt ((Logs.splitCells (c5Lines.getD 1 "")).getD 0 []) = some 1 :=
  ⟨by decide, by decide, by decide, by decide⟩

/-- Witness for C5 (amended): with no "Threat and Trust" rows at all, the
    built edge keeps its zero threat/trust defaults. -/
theorem C5_backfill_amended_witness :
    ({ fromCiv := "Player 0", toCiv := "Player 1", fromPlayerId := some 0,
       toPlayerId := some 1, state := "FRIENDLY", score := 5,
       threat := some 0, trust := some 0 } : Logs.DiplomaticRelation).threat = some 0 ∧
    ({ fromCiv := "Player 0", toCiv := "Player 1", fromPlayerId := some 0,
       toPlayerId := some 1, state := "FRIENDLY", score := 5,
       threat := some 0, trust := some 0 } : Logs.DiplomaticRelation).trust = some 0 :=
  C5_backfill_amended [] c5bLines _ (by decide) (by decide)

/-- Witness for C9: the self-cell of `c9Lines` (column 5, deriving
    `toPlayerId = fromPlayerId = 1`) produces no edge, and the one edge
    produced is not a self-relation. -/
theorem C9_no_self_relations_witness :
    Logs.parseDiplomacy [] c9Lines =
      [{ fromCiv := "Player 1", toCiv := "Player 2", fromPlayerId := some 1,
         toPlayerId := some 2, state := "ALLIED", score := 4,
         threat := some 0, trust := some 0 }] ∧
    ({ fromCiv := "Player 1", toCiv := "Player 2", fromPlayerId := some 1,
       toPlayerId := some 2, state := "ALLIED", score := 4,
       threat := some 0, trust := some 0 } : Logs.DiplomaticRelation).fromPlayerId ≠
    ({ fromCiv := "Player 1", toCiv := "Player 2", fromPlayerId := some 1,
       toPlayerId := some 2, state := "ALLIED", score := 4,
       threat := some 0, trust := some 0 } : Logs.DiplomaticRelation).toPlayerId :=
  ⟨by decide, C9_no_self_relations [] c9Lines _ (by decide)⟩

end Civ6

namespace Civ6.Hist

/-- A produced trend record carries exactly the two endpoint turns. -/
theorem trendOf_turns (s e : TurnData) (civ : CivStat) (tr : CivTrend)
    (h : trendOf s e civ = some tr) : tr.startTurn = s.turn ∧ tr.endTurn = e.turn := by
  unfold trendOf at h
  split at h
  · have := Option.some.inj h
    subst this
    exact ⟨rfl, rfl⟩
  · exact absurd h (by simp)

end Civ6.Hist

namespace Civ6

/-- C6: for a history whose statistics turns are exactly {1, 5, 9, 15}
    (latest 15), `analyzeTrends` with a 10-turn lookback windows every
    civilization's trend between turn 5 (the earliest turn ≥ 15 − 10
    present) and turn 15 — turn 1 is never an endpoint. -/
theorem C6_trend_window (turns : List Hist.TurnData) (trends : List Hist.CivTrend)
    (hturns : turns.map (·.turn) = [1, 5, 9, 15])
    (han : Hist.analyzeTrends 10 turns = some trends) :
    ∀ tr ∈ trends, tr.startTurn = 5 ∧ tr.endTurn = 15 := by
  rcases turns with _ | ⟨a, _ | ⟨b, _ | ⟨c, _ | ⟨d, _ | ⟨e, rest⟩⟩⟩⟩⟩ <;>
    simp only [List.map, List.cons.injEq] at hturns
  case nil => exact absurd hturns (by simp)
  case cons.nil => simp at hturns
  case cons.cons.nil => simp at hturns
  case cons.cons.cons.nil => simp at hturns
  case cons.cons.cons.cons.cons => simp at hturns
  case cons.cons.cons.cons.nil =>
    obtain ⟨ha, hb, hc, hd, -⟩ := hturns
    have hrel : Hist.relevantTurnsOf 10 [a, b, c, d] = [b, c, d] := by
      unfold Hist.relevantTurnsOf
      simp only [List.getLastD_cons, List.getLastD_nil]
      rw [hd]
      simp only [List.filter_cons, List.filter_nil, ha, hb, hc, hd]
      norm_num
    have hlen : ¬ ([a, b, c, d] : List Hist.TurnData).length < 2 := by simp
    rw [Hist.analyzeTrends, if_neg hlen] at han
    simp only [List.getLastD_cons, List.getLastD_nil, hrel] at han
    by_cases hmaj : (List.filter (fun s => !s.isCityState) d.civStats).length = 0
    · rw [if_pos hmaj] at han
      exact absurd han (by simp)
    · have hlen2 : ¬ ([b, c, d] : List Hist.TurnData).length < 2 := by simp
      rw [if_neg hmaj, if_neg hlen2] at han
      have htr := Option.some.inj han
      intro tr hmem
      rw [← htr] at hmem
      obtain ⟨civ, -, hciv⟩ := List.mem_filterMap.mp hmem
      have hout := Hist.trendOf_turns _ _ _ _ hciv
      simp only [List.headD_cons, List.getLastD_cons, List.getLastD_nil] at hout
      rw [hb, hd] at hout
      exact hout

end Civ6

namespace Civ6

/-- Witness for C6: the concrete sparse history `c6Turns` produces trends
    and every one of them uses turns 5 and 15 as window endpoints. -/
theorem C6_trend_window_witness :
    c6Turns.map (·.turn) = [1, 5, 9, 15] ∧
    ∀ tr ∈ (Hist.analyzeTrends 10 c6Turns).getD [], tr.startTurn = 5 ∧ tr.endTurn = 15 := by
  have hs : (Hist.analyzeTrends 10 c6Turns).isSome = true := by decide
  obtain ⟨x, hx⟩ := Option.isSome_iff_exists.mp hs
  refine ⟨by decide, ?_⟩
  rw [hx]
  exact C6_trend_window c6Turns x (by decide) hx

end Civ6

namespace Civ6

/-- C10: `getLatestTurnStatsFullCivsOnly` scans backward for the most
    recent turn with more than one major civilization and returns its
    non-city-state rows; only when no turn has more than one major civ
    does it fall back to the latest turn's non-city-state rows — so the
    returned turn need not be the last one recorded. -/
theorem C10_latest_full_turn (turns : List Hist.TurnData) :
    (∀ pre t post, turns = pre ++ t :: post →
      1 < (Hist.majorsOf t).length →
      (∀ u ∈ post, ¬ 1 < (Hist.majorsOf u).length) →
      Hist.getLatestTurnStatsFullCivsOnly turns = some (Hist.majorsOf t)) ∧
    ((∀ u ∈ turns, ¬ 1 < (Hist.majorsOf u).length) →
      ∀ t, turns.getLast? = some t →
      Hist.getLatestTurnStatsFullCivsOnly turns = some (Hist.majorsOf t)) := by
  constructor
  · intro pre t post heq hmaj hpost
    subst heq
    unfold Hist.getLatestTurnStatsFullCivsOnly
    rw [if_neg (by simp)]
    rw [List.reverse_append, List.reverse_cons]
    have hpostrev : (post.reverse).find?
        (fun u => !u.civStats.isEmpty && decide (1 < (Hist.majorsOf u).length)) = none := by
      rw [List.find?_eq_none]
      intro u hu hp
      have := hpost u (List.mem_reverse.mp hu)
      simp only [Bool.and_eq_true, decide_eq_true_eq] at hp
      exact this hp.2
    have hcond : (fun u : Hist.TurnData =>
        !u.civStats.isEmpty && decide (1 < (Hist.majorsOf u).length)) t = true := by
      have hne : ¬ t.civStats.isEmpty := by
        intro habs
        rw [List.isEmpty_iff] at habs
        rw [Hist.majorsOf, habs] at hmaj
        simp at hmaj
      simp only [Bool.and_eq_true, decide_eq_true_eq]
      exact ⟨by simpa using hne, hmaj⟩
    have hsingle := @List.find?_cons_of_pos _ (fun u : Hist.TurnData =>
      !u.civStats.isEmpty && decide (1 < (Hist.majorsOf u).length)) t [] hcond
    rw [List.find?_append, List.find?_append, hpostrev, hsingle]
    rfl
  · intro hno t hlast
    unfold Hist.getLatestTurnStatsFullCivsOnly
    have hne : turns ≠ [] := by
      intro habs
      rw [habs] at hlast
      simp at hlast
    rw [if_neg (by simp [List.length_eq_zero, hne])]
    have hfind : (turns.reverse).find?
        (fun u => !u.civStats.isEmpty && decide (1 < (Hist.majorsOf u).length)) = none := by
      rw [List.find?_eq_none]
      intro u hu hp
      simp only [Bool.and_eq_true, decide_eq_true_eq] at hp
      exact hno u (List.mem_reverse.mp hu) hp.2
    rw [hfind, hlast]
    rfl

end Civ6

namespace Civ6

/-- Witness for C10: with the last turn holding a single major civ, the
    returned rows are the previous (complete) turn's — not the last
    recorded turn's. -/
theorem C10_latest_full_turn_witness :
    Hist.getLatestTurnStatsFullCivsOnly c10Turns =
      some (Hist.majorsOf ⟨2, [c6Stat "Rome" 2, c6Stat "Egypt" 2]⟩) :=
  (C10_latest_full_turn c10Turns).1
    [⟨1, [c6Stat "Rome" 1, c6Stat "Egypt" 1]⟩]
    ⟨2, [c6Stat "Rome" 2, c6Stat "Egypt" 2]⟩
    [⟨3, [c6Stat "Rome" 3]⟩]
    (by decide) (by decide) (by decide)

end Civ6

namespace Civ6

set_option maxRecDepth 10000 in
/-- C8 is false as stated: 13 distinct city-states are matched in this
    decompressed section, but the output keeps only 12 — the `cityStates`
    list is sliced at 12, not at "a fixed maximum between 15 and 20" (and
    `playerCities` is never sliced at all, being bounded by its 10-entry
    static table instead). -/
theorem C8_counterexample :
    (Parser.analyzeDecompressedData c8Bytes).cityStates.length = 12 ∧
    (Parser.cityStatesFull (decodeUtf8 c8Bytes)).length = 13 := by
  constructor
  · decide
  · decide

/-- C8 (amended): the decompressed-content lists are capped at 20
    (technologies, civics), 15 (wonders, great people) and 12
    (city-states); `playerCities` has no slice but is bounded by the
    10-entry static city table.  Every capped list is a prefix of its
    uncapped first-match dedup list, so truncation keeps the insertion
    order of first match. -/
theorem C8_output_caps (data : List Nat) :
    (Parser.analyzeDecompressedData data).technologies.length ≤ 20 ∧
    (Parser.analyzeDecompressedData data).civics.length ≤ 20 ∧
    (Parser.analyzeDecompressedData data).wonders.length ≤ 15 ∧
    (Parser.analyzeDecompressedData data).greatPeople.length ≤ 15 ∧
    (Parser.analyzeDecompressedData data).cityStates.length ≤ 12 ∧
    (Parser.analyzeDecompressedData data).playerCities.length ≤ 10 ∧
    (Parser.analyzeDecompressedData data).technologies <+:
      (Parser.techsFull (decodeUtf8 data)).map
        (fun t => Parser.formatEnumValue (removeFirstSeq ("TECH_".data) t)) ∧
    (Parser.analyzeDecompressedData data).civics <+:
      (Parser.civicsFull (decodeUtf8 data)).map
        (fun c => Parser.formatEnumValue (removeFirstSeq ("CIVIC_".data) c)) ∧
    (Parser.analyzeDecompressedData data).wonders <+:
      Parser.wondersFull (decodeUtf8 data) ∧
    (Parser.analyzeDecompressedData data).greatPeople <+:
      (Parser.greatPeopleFull (decodeUtf8 data)).map Parser.formatGreatPersonName ∧
    (Parser.analyzeDecompressedData data).cityStates <+:
      Parser.cityStatesFull (decodeUtf8 data) := by
  simp only [Parser.analyzeDecompressedData]
  refine ⟨?_, ?_, ?_, ?_, ?_, ?_, ?_, ?_, ?_, ?_, ?_⟩
  · simp only [List.length_map, List.length_take]
    omega
  · simp only [List.length_map, List.length_take]
    omega
  · simp only [List.length_take]
    omega
  · simp only [List.length_map, List.length_take]
    omega
  · simp only [List.length_take]
    omega
  · simp only [Parser.playerCitiesOf, List.length_map]
    exact le_trans (List.length_filter_le _ _) (by decide)
  · rw [List.map_take]
    exact ⟨_, List.take_append_drop _ _⟩
  · rw [List.map_take]
    exact ⟨_, List.take_append_drop _ _⟩
  · exact ⟨_, List.take_append_drop _ _⟩
  · rw [List.map_take]
    exact ⟨_, List.take_append_drop _ _⟩
  · exact ⟨_, List.take_append_drop _ _⟩

end Civ6

namespace Civ6.Parser

/-- `findIdx?` only returns indices inside the list. -/
theorem findIdxQ_lt_length {α : Type} (p : α → Bool) :
    ∀ (l : List α) (i : Nat), l.findIdx? p = some i → i < l.length := by
  intro l
  induction l with
  | nil =>
    intro i h
    rw [List.findIdx?_nil] at h
    exact absurd h (by simp)
  | cons a rest ih =>
    intro i h
    rw [List.findIdx?_cons] at h
    by_cases hp : p a
    · rw [if_pos hp] at h
      have := Option.some.inj h
      simp [← this]
    · rw [if_neg hp, List.findIdx?_succ] at h
      rcases hfi : rest.findIdx? p with _ | j
      · rw [hfi] at h
        exact absurd h (by simp)
      · rw [hfi] at h
        have hij : j + 1 = i := Option.some.inj h
        have := ih j hfi
        simp only [List.length_cons]
        omega

/-- A `cityMatchIdx` hit is a valid roster index. -/
theorem cityMatchIdx_valid (allCivs : List CivInfo) (dec : Option DecompressedInfo)
    (i : Nat) (h : cityMatchIdx allCivs dec = some i) : i < allCivs.length := by
  unfold cityMatchIdx at h
  split at h
  · split at h
    · split at h
      · exact findIdxQ_lt_length _ _ _ h
      · exact absurd h (by simp)
    · exact absurd h (by simp)
  · exact absurd h (by simp)

/-- On a successful city match the picked player civ is marked human. -/
theorem pickPlayer_match_human (allCivs : List CivInfo) (i : Nat)
    (hi : i < allCivs.length) :
    ∃ c, (pickPlayer allCivs (some i)).1 = some c ∧ c.isHuman = true := by
  unfold pickPlayer
  rcases hg : allCivs.get? i with _ | c
  · rw [List.get?_eq_none] at hg
    omega
  · simp only [hg]
    exact ⟨_, rfl, rfl⟩

end Civ6.Parser

namespace Civ6.Parser

/-- `humanCount` on an assembled `GameState`, written out. -/
theorem humanCount_mk (ld cv : String) (pc : Option CivInfo) (tn : Nat)
    (gs ms : String) (oc : List CivInfo) (cs : List String)
    (dc : Option DecompressedInfo) :
    humanCount ⟨ld, cv, pc, tn, gs, ms, oc, cs, dc⟩ =
      (match pc with
       | some c => if c.isHuman then 1 else 0
       | none => 0) + (oc.filter (·.isHuman)).length := rfl

/-- Force-clearing `isHuman` leaves no humans to count. -/
theorem filter_human_map_false (l : List CivInfo) :
    (l.map (fun c => { c with isHuman := false })).filter (·.isHuman) = [] := by
  rw [List.filter_eq_nil_iff]
  intro a ha
  obtain ⟨x, -, rfl⟩ := List.mem_map.mp ha
  simp

end Civ6.Parser

namespace Civ6

/-- C7 (amended): after `parseSaveFile` succeeds, at most one extracted
    `CivInfo` record (the player civ together with `otherCivs`) has
    `isHuman = true`: all `otherCivs` are force-cleared, and when the
    city-name identification succeeds (`cityMatchIdx` yields an index)
    the picked player civ is marked human, giving exactly one.  In the
    fallback the first civ keeps its header-derived flag, which may be
    false — so possibly none, refuting "exactly one" in general. -/
theorem C7_at_most_one_human
    (inflate : List Nat → Option (List Nat)) (buffer : List Nat) (filename : List Char)
    (st : Parser.GameState)
    (hok : Parser.parseSaveFile inflate buffer filename = .ok st) :
    Parser.humanCount st ≤ 1 ∧
    (∀ c ∈ st.otherCivs, c.isHuman = false) ∧
    (Parser.cityMatchIdx
        (Parser.allCivsOfHeader (Parser.extractCivsFromHeader
          (decodeUtf8 (buffer.take (min buffer.length 150000)))))
        ((Parser.decompressGameData inflate buffer).map Parser.analyzeDecompressedData)
      ≠ none → Parser.humanCount st = 1) := by
  by_cases hm : decodeAscii (buffer.take 4) = "CIV6"
  case neg =>
    rw [(C1_parse_magic_amended inflate buffer filename).1 hm] at hok
    exact absurd hok (by simp)
  case pos =>
    rcases e1 : Parser.readMarkerValue buffer Parser.GAME_TURN with v1 | v1 <;>
      rcases e2 : Parser.readMarkerValue buffer Parser.GAME_SPEED with v2 | v2 <;>
      rcases e3 : Parser.readMarkerValue buffer Parser.MAP_SIZE with v3 | v3 <;>
      simp [Parser.parseSaveFile, hm, e1, e2, e3, Bind.bind, Except.bind,
        Pure.pure, Except.pure] at hok
    case ok.ok.ok =>
      subst hok
      refine ⟨?_, ?_, ?_⟩
      · rw [Parser.humanCount_mk, Parser.filter_human_map_false]
        rcases (Parser.pickPlayer _ _).1 with _ | c
        · simp
        · simp only [List.length_nil]
          split <;> omega
      · intro c hc
        obtain ⟨x, -, rfl⟩ := List.mem_map.mp hc
        rfl
      · intro hne
        rcases hcm : Parser.cityMatchIdx
            (Parser.allCivsOfHeader (Parser.extractCivsFromHeader
              (decodeUtf8 (buffer.take (min buffer.length 150000)))))
            ((Parser.decompressGameData inflate buffer).map Parser.analyzeDecompressedData)
          with _ | i
        · exact absurd hcm hne
        · have hi := Parser.cityMatchIdx_valid _ _ _ hcm
          obtain ⟨c, hc1, hc2⟩ := Parser.pickPlayer_match_human _ _ hi
          rw [Parser.humanCount_mk, Parser.filter_human_map_false, hc1]
          simp [hc2]

end Civ6

namespace Civ6

set_option maxRecDepth 10000 in
/-- C7 is false as stated: `parseSaveFile` succeeds on `c7Buf`, the city
    match fails (no decompressed data), and the fallback player civ keeps
    its header-derived `isHuman = false` — so zero extracted records are
    marked human, not exactly one. -/
theorem C7_counterexample :
    Parser.parseSaveFile (fun _ => none) c7Buf [] = .ok c7State ∧
    Parser.humanCount c7State = 0 :=
  ⟨by decide, by decide⟩

set_option maxRecDepth 10000 in
/-- Witness for C7 (amended) at the concrete buffer `c7Buf`. -/
theorem C7_at_most_one_human_witness :
    Parser.humanCount c7State ≤ 1 ∧
    (∀ c ∈ c7State.otherCivs, c.isHuman = false) ∧
    (Parser.cityMatchIdx
        (Parser.allCivsOfHeader (Parser.extractCivsFromHeader
          (decodeUtf8 (c7Buf.take (min c7Buf.length 150000)))))
        ((Parser.decompressGameData (fun _ => none) c7Buf).map Parser.analyzeDecompressedData)
      ≠ none → Parser.humanCount c7State = 1) :=
  C7_at_most_one_human (fun _ => none) c7Buf [] c7State (by decide)

end Civ6
